import Mathlib

/-!
Shallow embedding of the `VectorDatabase` class from
`src/Chapter_5/Lecture_5.ipynb` (the vector-similarity-search core:
in-memory FAISS-style flat L2 index, parallel document and metadata
lists, add/search/save/load), together with theorems settling the
specification claims about it.

Modelling conventions:
* float32 vector components are modelled as exact integers (`List ℤ`):
  every finite set of float values scales to integers preserving the
  order of squared distances, no operation of this core ever divides,
  and the ordering/ranking claims are representation-independent.
* The injected embedder (`self.generate_embeddings`, an external
  transformer model) is a function parameter `embed`.
* Python methods that mutate `self` and may raise are modelled as
  functions returning the final state together with an
  `Except DBError Unit` outcome, so the state left behind by a failed
  call is observable.
* The filesystem directory used by `save`/`load` is modelled as a
  `Location` of four artifacts, each present-and-parsable, missing, or
  unreadable.
-/

/-- Metadata values: the example notebook stores strings; the stamped
`document_idx` entry is a number. -/
inductive MValue where
  | str : String → MValue
  | nat : Nat → MValue
deriving DecidableEq

/-- A Python dict of metadata, modelled as an association list. -/
abbrev Metadata := List (String × MValue)

/-- Dictionary lookup, `m[k]`. -/
def mdGet (m : Metadata) (k : String) : Option MValue :=
  match m with
  | [] => none
  | (k1, v) :: rest => if k1 = k then some v else mdGet rest k

/-- Dictionary assignment `m[k] = v` (replaces an existing binding). -/
def mdInsert (m : Metadata) (k : String) (v : MValue) : Metadata :=
  match m with
  | [] => [(k, v)]
  | (k1, v1) :: rest =>
      if k1 = k then (k, v) :: rest else (k1, v1) :: mdInsert rest k v

/-- Error outcomes of the modelled methods.  The spec's names are used:
the `assert` on metadata length is `lengthMismatch`, the faiss dimension
check is `dimensionMismatch`, and every exception raised while reading
persisted artifacts in `load` is `corruptState`. -/
inductive DBError where
  | lengthMismatch
  | dimensionMismatch
  | corruptState
deriving DecidableEq

deriving instance DecidableEq for Except

/-- Squared Euclidean distance between two vectors (the L2 metric of
`faiss.IndexFlatL2`, without the square root). -/
def sqDist (u v : List ℤ) : ℤ :=
  (List.zipWith (fun a b => (a - b) * (a - b)) u v).sum

/-- Ordering on (distance, position) pairs: smaller distance first,
ties broken by lower position. -/
def lexLe (a b : ℤ × Nat) : Prop :=
  a.1 < b.1 ∨ (a.1 = b.1 ∧ a.2 ≤ b.2)

instance : DecidableRel lexLe := fun a b =>
  inferInstanceAs (Decidable (a.1 < b.1 ∨ (a.1 = b.1 ∧ a.2 ≤ b.2)))

instance : IsTotal (ℤ × Nat) lexLe := by
  constructor
  intro a b
  rcases lt_trichotomy a.1 b.1 with h | h | h
  · exact Or.inl (Or.inl h)
  · rcases Nat.le_total a.2 b.2 with h2 | h2
    · exact Or.inl (Or.inr ⟨h, h2⟩)
    · exact Or.inr (Or.inr ⟨h.symm, h2⟩)
  · exact Or.inr (Or.inl h)

instance : IsTrans (ℤ × Nat) lexLe := by
  constructor
  intro a b c hab hbc
  rcases hab with h1 | ⟨h1, h1'⟩
  · rcases hbc with h2 | ⟨h2, _⟩
    · exact Or.inl (h1.trans h2)
    · exact Or.inl (h2 ▸ h1)
  · rcases hbc with h2 | ⟨h2, h2'⟩
    · exact Or.inl (h1 ▸ h2)
    · exact Or.inr ⟨h1.trans h2, h1'.trans h2'⟩

/-- Modelled from the spec: the `faiss.IndexFlatL2` object held in
`self.index`, which is external library state (not part of this
repository's source).  It stores its fixed dimensionality and the
ordered list of inserted vectors. -/
structure FaissIndex where
  d : Nat
  vectors : List (List ℤ)
deriving DecidableEq

/-- Modelled from the spec: `faiss` `index.add(embeddings)` — appends
the batch in order; fails (raises) if the batch width differs from the
index dimensionality, in which case nothing is added. -/
def FaissIndex.add (ix : FaissIndex) (vs : List (List ℤ)) :
    Except DBError FaissIndex :=
  if vs.all (fun v => v.length = ix.d) then
    Except.ok ⟨ix.d, ix.vectors ++ vs⟩
  else
    Except.error DBError.dimensionMismatch

/-- Modelled from the spec: `faiss` `index.search(query, k)` — exact
brute-force scan computing the squared Euclidean distance from the
query to every stored vector, returning the `k` smallest distances
ascending with ties broken by lower position. -/
def FaissIndex.search (ix : FaissIndex) (q : List ℤ) (k : Nat) :
    List (ℤ × Nat) :=
  (List.insertionSort lexLe
    (ix.vectors.enum.map (fun p => (sqDist q p.2, p.1)))).take k

/-- One entry of the result list built by `VectorDatabase.search`. -/
structure SearchResult where
  rank : Nat
  document_idx : Nat
  distance : ℤ
  text : String
  metadata : Metadata
deriving DecidableEq

/-- The `VectorDatabase` object: `self.model_name`, `self.index`
(`None` until the first insertion), `self.documents`, `self.metadata`.
The tokenizer/model pair is external and is represented by
`model_name` alone. -/
structure VectorDatabase where
  model_name : String
  index : Option FaissIndex
  documents : List String
  metadata : List Metadata
deriving DecidableEq

/-- `VectorDatabase.__init__`: empty database, no index yet. -/
def VectorDatabase.init (model_name : String) : VectorDatabase :=
  ⟨model_name, none, [], []⟩

/-- Modelled from the spec: `total_count()` — the spec's observation of
the number of stored documents; the code observes `len(self.documents)`. -/
def VectorDatabase.total_count (db : VectorDatabase) : Nat :=
  db.documents.length

/-- Number of vectors held by `self.index` (`0` when the index is
`None`). -/
def VectorDatabase.indexLen (db : VectorDatabase) : Nat :=
  match db.index with
  | none => 0
  | some ix => ix.vectors.length

/-- The metadata-stamping loop of `add_documents`:
`for i, meta in enumerate(metadata): meta['document_idx'] = start_idx + i`. -/
def stampMetadata (start : Nat) (md : List Metadata) : List Metadata :=
  md.enum.map (fun p => mdInsert p.2 "document_idx" (MValue.nat (start + p.1)))

/-- The index object in effect after step 3 of `add_documents`: the
existing one, or a fresh empty `IndexFlatL2` whose dimensionality is the
width of the embedding batch (`embeddings.shape[1]`). -/
def currentIndex (db : VectorDatabase) (embeddings : List (List ℤ)) :
    FaissIndex :=
  match db.index with
  | none => ⟨(embeddings.headD []).length, []⟩
  | some ix => ix

/-- `VectorDatabase.add_documents(documents, metadata)`.  Faithful to
the statement order of the Python method:
1. `if not documents: return` (no error, no state change);
2. `embeddings = self.generate_embeddings(documents)`;
3. `if self.index is None: self.index = faiss.IndexFlatL2(embeddings.shape[1])`;
4. `self.index.add(embeddings)` — on a dimension failure the method
   raises here, with `self.index` already assigned (step 3) but the
   document and metadata lists untouched;
5. `start_idx = len(self.documents)`; `self.documents.extend(documents)`;
6. default metadata to `[{} for _ in documents]`, then
   `assert len(metadata) == len(documents)` — on failure the method
   raises here, with the index and document list already extended and
   the metadata list untouched;
7. stamp `document_idx` and `self.metadata.extend(metadata)`.
Returns the final state and the outcome. -/
def VectorDatabase.add_documents (embed : List String → List (List ℤ))
    (db : VectorDatabase) (documents : List String)
    (metadata : Option (List Metadata)) :
    VectorDatabase × Except DBError Unit :=
  if documents.isEmpty then (db, Except.ok ()) else
  let embeddings := embed documents
  let ix0 : FaissIndex := currentIndex db embeddings
  match ix0.add embeddings with
  | Except.error e => ({ db with index := some ix0 }, Except.error e)
  | Except.ok ix1 =>
    let start := db.documents.length
    let documents1 := db.documents ++ documents
    let md := metadata.getD (documents.map (fun _ => ([] : Metadata)))
    if md.length = documents.length then
      ({ db with
          index := some ix1
          documents := documents1
          metadata := db.metadata ++ stampMetadata start md },
       Except.ok ())
    else
      ({ db with index := some ix1, documents := documents1 },
       Except.error DBError.lengthMismatch)

/-- `VectorDatabase.search(query, k)`.  Returns `[]` when the index is
`None` or no documents are stored; otherwise embeds the query, clamps
`k` to the number of documents, delegates to the index, and joins each
returned position against the document and metadata lists (out-of-range
positions, impossible under the length invariant, default to
`""`/`[]`). -/
def VectorDatabase.search (embed : List String → List (List ℤ))
    (db : VectorDatabase) (query : String) (k : Nat) : List SearchResult :=
  match db.index with
  | none => []
  | some ix =>
    if db.documents.length = 0 then [] else
    let qe := (embed [query]).headD []
    let kk := min k db.documents.length
    let hits := ix.search qe kk
    hits.enum.map (fun p =>
      { rank := p.1 + 1
        document_idx := p.2.2
        distance := p.2.1
        text := db.documents.getD p.2.2 ""
        metadata := db.metadata.getD p.2.2 [] })

/-- State of one persisted artifact at a storage location: present and
parsable, absent, or present but unreadable (raises on read). -/
inductive Artifact (α : Type) where
  | missing
  | corrupt
  | stored (val : α)
deriving DecidableEq

/-- A storage directory holding the four artifacts written by `save`
(`index.faiss`, `documents.pkl`, `metadata.pkl`, `model_name.txt`). -/
structure Location where
  indexArtifact : Artifact FaissIndex
  documentsArtifact : Artifact (List String)
  metadataArtifact : Artifact (List Metadata)
  modelNameArtifact : Artifact String
deriving DecidableEq

/-- `VectorDatabase.save(directory)`: writes `documents.pkl`,
`metadata.pkl` and `model_name.txt` unconditionally, but writes
`index.faiss` only when `self.index is not None` — whatever was at that
path before (`prev.indexArtifact`) is left in place otherwise. -/
def VectorDatabase.save (db : VectorDatabase) (prev : Location) : Location :=
  { indexArtifact :=
      match db.index with
      | some ix => Artifact.stored ix
      | none => prev.indexArtifact
    documentsArtifact := Artifact.stored db.documents
    metadataArtifact := Artifact.stored db.metadata
    modelNameArtifact := Artifact.stored db.model_name }

/-- `VectorDatabase.load(directory)`: reads `model_name.txt`,
`documents.pkl` and `metadata.pkl`, raising if any is missing or fails
to parse; then reads `index.faiss` only `if os.path.exists(index_path)`
— a missing index artifact is silently tolerated (the index stays
`None`), an unreadable one raises.  No length validation is performed. -/
def VectorDatabase.load (loc : Location) : Except DBError VectorDatabase :=
  match loc.modelNameArtifact with
  | Artifact.stored name =>
    match loc.documentsArtifact with
    | Artifact.stored docs =>
      match loc.metadataArtifact with
      | Artifact.stored md =>
        match loc.indexArtifact with
        | Artifact.missing => Except.ok ⟨name, none, docs, md⟩
        | Artifact.corrupt => Except.error DBError.corruptState
        | Artifact.stored ix => Except.ok ⟨name, some ix, docs, md⟩
      | _ => Except.error DBError.corruptState
    | _ => Except.error DBError.corruptState
  | _ => Except.error DBError.corruptState

/-- Boolean success test for `Except`. -/
def exceptOk {ε α : Type} : Except ε α → Bool
  | Except.ok _ => true
  | Except.error _ => false

/-- Presence test for an artifact. -/
def Artifact.isStored {α : Type} : Artifact α → Bool
  | Artifact.stored _ => true
  | _ => false

/-- Unreadability test for an artifact. -/
def Artifact.isCorrupt {α : Type} : Artifact α → Bool
  | Artifact.corrupt => true
  | _ => false

/-- Ranking key of a search result: its (distance, position) pair. -/
def resKey (r : SearchResult) : ℤ × Nat := (r.distance, r.document_idx)

/-- Well-formedness of a catalog as maintained by successful
operations: index, document and metadata lengths agree, and every
stored metadata dict carries `document_idx` equal to its own
position/DocumentId. -/
def Wf (db : VectorDatabase) : Prop :=
  db.indexLen = db.documents.length ∧
  db.metadata.length = db.documents.length ∧
  ∀ i, i < db.metadata.length →
    mdGet (db.metadata.getD i []) "document_idx" = some (MValue.nat i)

instance (db : VectorDatabase) : Decidable (Wf db) := by
  unfold Wf; infer_instance

/-- Concrete embedder fixture: every text maps to the vector `[1]`. -/
def embConst : List String → List (List ℤ) := fun ts => ts.map (fun _ => [1])

/-- Concrete embedder fixture of width two. -/
def embWide : List String → List (List ℤ) := fun ts => ts.map (fun _ => [1, 0])

/-- Concrete well-formed three-document catalog fixture. -/
def dbThree : VectorDatabase :=
  ⟨"distilbert-base-uncased",
   some ⟨1, [[0], [2], [2]]⟩,
   ["a", "b", "c"],
   [[("document_idx", MValue.nat 0)],
    [("document_idx", MValue.nat 1)],
    [("document_idx", MValue.nat 2)]]⟩

/-- Empty storage directory fixture. -/
def locEmpty : Location :=
  ⟨Artifact.missing, Artifact.missing, Artifact.missing, Artifact.missing⟩

/-- Location fixture whose documents/metadata/model-name artifacts are
present but whose index artifact is absent. -/
def locGap : Location :=
  ⟨Artifact.missing, Artifact.stored ["a"],
   Artifact.stored [[("document_idx", MValue.nat 0)]],
   Artifact.stored "distilbert-base-uncased"⟩

/-- The catalog that `load` returns for `locGap`. -/
def dbGap : VectorDatabase :=
  ⟨"distilbert-base-uncased", none, ["a"],
   [[("document_idx", MValue.nat 0)]]⟩

/-- The first result of searching `dbThree` with `embConst`: all three
stored vectors are at squared distance 1 from the query embedding
`[1]`, so the tie is broken by the lowest position. -/
def rFirst : SearchResult :=
  ⟨1, 0, 1, "a", [("document_idx", MValue.nat 0)]⟩

/- Helper lemmas about the embedded operations. -/

theorem currentIndex_vectors_length (db : VectorDatabase)
    (es : List (List ℤ)) :
    (currentIndex db es).vectors.length = db.indexLen := by
  unfold currentIndex VectorDatabase.indexLen
  cases db.index <;> rfl

theorem faissIndex_add_ok (ix : FaissIndex) (vs : List (List ℤ))
    (h : ∀ v ∈ vs, v.length = ix.d) :
    ix.add vs = Except.ok ⟨ix.d, ix.vectors ++ vs⟩ := by
  unfold FaissIndex.add
  rw [if_pos]
  simpa [List.all_eq_true] using h

theorem faissIndex_add_err (ix : FaissIndex) (vs : List (List ℤ))
    (h : ¬ ∀ v ∈ vs, v.length = ix.d) :
    ix.add vs = Except.error DBError.dimensionMismatch := by
  unfold FaissIndex.add
  rw [if_neg]
  simpa [List.all_eq_true] using h

theorem faissIndex_add_ok_spec {ix : FaissIndex} {vs : List (List ℤ)}
    {ix1 : FaissIndex} (h : ix.add vs = Except.ok ix1) :
    ix1.vectors.length = ix.vectors.length + vs.length ∧ ix1.d = ix.d := by
  unfold FaissIndex.add at h
  split at h
  · cases h; simp
  · cases h

theorem isEmpty_false_of_ne_nil {α : Type} {l : List α} (h : l ≠ []) :
    l.isEmpty = false := by
  simpa [List.isEmpty_iff] using h

theorem add_documents_of_add_err (embed : List String → List (List ℤ))
    (db : VectorDatabase) (docs : List String) (md : Option (List Metadata))
    (e : DBError) (hne : docs ≠ [])
    (h : (currentIndex db (embed docs)).add (embed docs) = Except.error e) :
    VectorDatabase.add_documents embed db docs md =
      ({ db with index := some (currentIndex db (embed docs)) },
       Except.error e) := by
  unfold VectorDatabase.add_documents
  rw [if_neg (by simp [isEmpty_false_of_ne_nil hne])]
  simp only [h]

theorem add_documents_of_md_good (embed : List String → List (List ℤ))
    (db : VectorDatabase) (docs : List String) (md : Option (List Metadata))
    (ix1 : FaissIndex)
    (h : (currentIndex db (embed docs)).add (embed docs) = Except.ok ix1)
    (hne : docs ≠ [])
    (hmd : (md.getD (docs.map fun _ => ([] : Metadata))).length = docs.length) :
    VectorDatabase.add_documents embed db docs md =
      ({ db with
          index := some ix1
          documents := db.documents ++ docs
          metadata := db.metadata ++
            stampMetadata db.documents.length
              (md.getD (docs.map fun _ => ([] : Metadata))) },
       Except.ok ()) := by
  unfold VectorDatabase.add_documents
  rw [if_neg (by simp [isEmpty_false_of_ne_nil hne])]
  simp only [h]
  rw [if_pos hmd]

theorem add_documents_of_md_bad (embed : List String → List (List ℤ))
    (db : VectorDatabase) (docs : List String) (md : Option (List Metadata))
    (ix1 : FaissIndex)
    (h : (currentIndex db (embed docs)).add (embed docs) = Except.ok ix1)
    (hne : docs ≠ [])
    (hmd : (md.getD (docs.map fun _ => ([] : Metadata))).length ≠ docs.length) :
    VectorDatabase.add_documents embed db docs md =
      ({ db with index := some ix1, documents := db.documents ++ docs },
       Except.error DBError.lengthMismatch) := by
  unfold VectorDatabase.add_documents
  rw [if_neg (by simp [isEmpty_false_of_ne_nil hne])]
  simp only [h]
  rw [if_neg hmd]

/-- C10: calling `add_documents` with an empty documents list returns
normally without error and leaves the catalog exactly unchanged; the
result is the same for every embedder, so the embedder is never
consulted. -/
theorem C10_empty_batch_noop (embed : List String → List (List ℤ))
    (db : VectorDatabase) (metadata : Option (List Metadata)) :
    VectorDatabase.add_documents embed db [] metadata =
      (db, Except.ok ()) := rfl

/-- C1 counterexample: on an empty catalog, `add_documents` with one
text and two metadata dicts does fail with a length-mismatch error, but
the catalog state is NOT what it was before the call — the batch is not
rolled back. -/
theorem C1_counterexample :
    (VectorDatabase.add_documents embConst (VectorDatabase.init "m")
        ["a"] (some [[], []])).2 = Except.error DBError.lengthMismatch ∧
    (VectorDatabase.add_documents embConst (VectorDatabase.init "m")
        ["a"] (some [[], []])).1 ≠ VectorDatabase.init "m" := by
  decide

/-- C1 (amended): when `metadata` is given with a length different from
`len(texts)` on a non-empty batch whose embeddings pass the dimension
check, `add_documents` fails with the length-mismatch error, but the
partial batch is not rolled back: the index and the document list
retain the new batch, while the metadata list alone is unchanged. -/
theorem C1_no_rollback (embed : List String → List (List ℤ))
    (db : VectorDatabase) (docs : List String) (md : List Metadata)
    (hne : docs ≠ [])
    (hlen : md.length ≠ docs.length)
    (hdim : ∀ v ∈ embed docs, v.length = (currentIndex db (embed docs)).d) :
    VectorDatabase.add_documents embed db docs (some md) =
      ({ db with
          index := some ⟨(currentIndex db (embed docs)).d,
            (currentIndex db (embed docs)).vectors ++ embed docs⟩
          documents := db.documents ++ docs },
       Except.error DBError.lengthMismatch) := by
  exact add_documents_of_md_bad embed db docs (some md) _
    (faissIndex_add_ok _ _ hdim) hne (by simpa using hlen)

/-- Closed witness for `C1_no_rollback` at a concrete input. -/
theorem C1_no_rollback_witness :
    VectorDatabase.add_documents embConst (VectorDatabase.init "m")
        ["a"] (some [[], []]) =
      ({ VectorDatabase.init "m" with
          index := some ⟨1, [[1]]⟩
          documents := ["a"] },
       Except.error DBError.lengthMismatch) := by
  have h := C1_no_rollback embConst (VectorDatabase.init "m") ["a"] [[], []]
    (by decide) (by decide) (by decide)
  exact h.trans (by decide)

/-- C4 counterexample: a location whose documents, metadata and
model-name artifacts are present but whose index artifact is missing —
so the loaded index length 0 differs from the loaded store length 1 —
is loaded successfully into a catalog, where the claim requires the
load to fail. -/
theorem C4_counterexample :
    VectorDatabase.load locGap = Except.ok dbGap ∧
    dbGap.indexLen ≠ dbGap.total_count := by
  decide

/-- C4 (amended): `load` fails exactly when the model-name, documents
or metadata artifact is missing or unparsable, or the index artifact is
present but unreadable; a missing index artifact is silently tolerated
(the index is left absent) and the index/store lengths are never
re-validated, so `load` can return a catalog violating the length
invariant. -/
theorem C4_load_ok_iff (loc : Location) :
    exceptOk (VectorDatabase.load loc) =
      (loc.modelNameArtifact.isStored && loc.documentsArtifact.isStored &&
        loc.metadataArtifact.isStored && !loc.indexArtifact.isCorrupt) := by
  rcases loc with ⟨ia, da, ma, na⟩
  cases na <;> cases da <;> cases ma <;> cases ia <;> rfl

/-- C3 counterexample: saving an empty catalog (whose index is `None`,
so `save` does not write the index artifact) into a directory that
already holds an unreadable `index.faiss` leaves that artifact in
place, and loading the saved location then fails instead of yielding an
observationally equivalent catalog. -/
theorem C3_counterexample :
    VectorDatabase.load
        ((VectorDatabase.init "m").save
          ⟨Artifact.corrupt, Artifact.missing, Artifact.missing,
           Artifact.missing⟩) =
      Except.error DBError.corruptState := by
  decide

/-- C3 (amended): whenever the catalog's index exists — or the prior
contents of the location hold no index artifact — `load` after `save`
returns exactly the saved catalog, hence a catalog with equal
`total_count`, equal `search` results for every embedder, query and
`k`, and equal per-document text and metadata values. -/
theorem C3_round_trip (db : VectorDatabase) (prev : Location)
    (h : db.index.isSome = true ∨ prev.indexArtifact = Artifact.missing) :
    VectorDatabase.load (db.save prev) = Except.ok db ∧
    ∀ loaded, VectorDatabase.load (db.save prev) = Except.ok loaded →
      loaded.total_count = db.total_count ∧
      (∀ embed q k, VectorDatabase.search embed loaded q k =
        VectorDatabase.search embed db q k) ∧
      loaded.documents = db.documents ∧ loaded.metadata = db.metadata := by
  have h1 : VectorDatabase.load (db.save prev) = Except.ok db := by
    rcases db with ⟨name, ixo, docs, md⟩
    cases ixo with
    | some ix => rfl
    | none =>
      rcases h with h | h
      · simp at h
      · simp only [VectorDatabase.save, VectorDatabase.load, h]
  refine ⟨h1, ?_⟩
  intro loaded hl
  rw [h1] at hl
  cases hl
  exact ⟨rfl, fun _ _ _ => rfl, rfl, rfl⟩

/-- Closed witness for `C3_round_trip` at a concrete input. -/
theorem C3_round_trip_witness :
    VectorDatabase.load (dbThree.save locEmpty) = Except.ok dbThree :=
  (C3_round_trip dbThree locEmpty (Or.inl (by decide))).1

/-- C7: once the index exists (its dimensionality was fixed by the
first inserted batch), an `add_documents` call whose embeddings do not
all have that dimensionality fails with the dimension-mismatch error
and leaves the catalog state — in particular `total_count()` — exactly
unchanged. -/
theorem C7_dimension_mismatch (embed : List String → List (List ℤ))
    (db : VectorDatabase) (docs : List String) (md : Option (List Metadata))
    (ix : FaissIndex) (hix : db.index = some ix) (hne : docs ≠ [])
    (hbad : ¬ ∀ v ∈ embed docs, v.length = ix.d) :
    VectorDatabase.add_documents embed db docs md =
      (db, Except.error DBError.dimensionMismatch) ∧
    (VectorDatabase.add_documents embed db docs md).1.total_count =
      db.total_count := by
  have hcur : currentIndex db (embed docs) = ix := by
    unfold currentIndex
    rw [hix]
  have herr := add_documents_of_add_err embed db docs md
    DBError.dimensionMismatch hne
    (by rw [hcur]; exact faissIndex_add_err ix (embed docs) hbad)
  have hdb : { db with index := some (currentIndex db (embed docs)) } = db := by
    rw [hcur, ← hix]
  rw [herr, hdb]
  exact ⟨rfl, rfl⟩

/-- Closed witness for `C7_dimension_mismatch` at a concrete input. -/
theorem C7_dimension_mismatch_witness :
    VectorDatabase.add_documents embWide dbThree ["zz"] none =
      (dbThree, Except.error DBError.dimensionMismatch) ∧
    (VectorDatabase.add_documents embWide dbThree ["zz"] none).1.total_count =
      dbThree.total_count :=
  C7_dimension_mismatch embWide dbThree ["zz"] none ⟨1, [[0], [2], [2]]⟩
    (by decide) (by decide) (by decide)

/-- C8: a successful `add_documents` call on a non-empty batch
increases `total_count()` by exactly the batch size. -/
theorem C8_total_count (embed : List String → List (List ℤ))
    (db : VectorDatabase) (docs : List String) (md : Option (List Metadata))
    (hne : docs ≠ [])
    (hok : (VectorDatabase.add_documents embed db docs md).2 =
      Except.ok ()) :
    (VectorDatabase.add_documents embed db docs md).1.total_count =
      db.total_count + docs.length := by
  cases hadd : (currentIndex db (embed docs)).add (embed docs) with
  | error e =>
    rw [add_documents_of_add_err embed db docs md e hne hadd] at hok
    cases hok
  | ok ix1 =>
    by_cases hmd :
        (md.getD (docs.map fun _ => ([] : Metadata))).length = docs.length
    · rw [add_documents_of_md_good embed db docs md ix1 hadd hne hmd]
      simp [VectorDatabase.total_count]
    · rw [add_documents_of_md_bad embed db docs md ix1 hadd hne hmd] at hok
      cases hok

/-- Closed witness for `C8_total_count` at a concrete input. -/
theorem C8_total_count_witness :
    (VectorDatabase.add_documents embConst dbThree ["d", "e"] none).1.total_count =
      dbThree.total_count + 2 :=
  C8_total_count embConst dbThree ["d", "e"] none (by decide) (by decide)

theorem faiss_search_length (ix : FaissIndex) (q : List ℤ) (k : Nat) :
    (ix.search q k).length = min k ix.vectors.length := by
  unfold FaissIndex.search
  rw [List.length_take, (List.perm_insertionSort lexLe _).length_eq,
    List.length_map, List.enum_length]

theorem faiss_search_sorted (ix : FaissIndex) (q : List ℤ) (k : Nat) :
    List.Pairwise lexLe (ix.search q k) :=
  List.Pairwise.sublist (List.take_sublist k _)
    (List.sorted_insertionSort lexLe _)

theorem faiss_search_mem_lt (ix : FaissIndex) (q : List ℤ) (k : Nat) :
    ∀ pr ∈ ix.search q k, pr.2 < ix.vectors.length := by
  intro pr hpr
  unfold FaissIndex.search at hpr
  have h1 := (List.mem_insertionSort lexLe).mp (List.mem_of_mem_take hpr)
  obtain ⟨⟨j, v⟩, hj, rfl⟩ := List.mem_map.mp h1
  exact List.fst_lt_of_mem_enum hj

theorem faiss_search_complete (ix : FaissIndex) (q : List ℤ) (k : Nat) :
    ∀ pr ∈ ix.search q k, ∀ p, p < ix.vectors.length →
      p ∉ (ix.search q k).map Prod.snd →
      lexLe pr (sqDist q (ix.vectors.getD p []), p) := by
  intro pr hpr p hp hnot
  have hget : ix.vectors[p]? = some (ix.vectors.getD p []) := by
    rw [List.getD_eq_getElem?_getD, List.getElem?_eq_getElem hp]
    rfl
  have hmem :
      (sqDist q (ix.vectors.getD p []), p) ∈
        ix.vectors.enum.map (fun pa => (sqDist q pa.2, pa.1)) :=
    List.mem_map.mpr ⟨(p, ix.vectors.getD p []),
      List.mem_enum_iff_getElem?.mpr hget, rfl⟩
  have hmem2 :
      (sqDist q (ix.vectors.getD p []), p) ∈
        List.insertionSort lexLe
          (ix.vectors.enum.map (fun pa => (sqDist q pa.2, pa.1))) :=
    (List.mem_insertionSort lexLe).mpr hmem
  have hsorted := List.sorted_insertionSort lexLe
    (ix.vectors.enum.map (fun pa => (sqDist q pa.2, pa.1)))
  rw [← List.take_append_drop k (List.insertionSort lexLe
    (ix.vectors.enum.map (fun pa => (sqDist q pa.2, pa.1))))] at hmem2 hsorted
  rcases List.mem_append.mp hmem2 with h | h
  · exact absurd (List.mem_map_of_mem Prod.snd h) hnot
  · exact (List.pairwise_append.mp hsorted).2.2 pr hpr _ h

theorem search_eq (embed : List String → List (List ℤ))
    (db : VectorDatabase) (q : String) (k : Nat) (ix : FaissIndex)
    (hix : db.index = some ix) (hne : db.documents ≠ []) :
    VectorDatabase.search embed db q k =
      (FaissIndex.search ix ((embed [q]).headD [])
          (min k db.documents.length)).enum.map
        (fun p =>
          { rank := p.1 + 1
            document_idx := p.2.2
            distance := p.2.1
            text := db.documents.getD p.2.2 ""
            metadata := db.metadata.getD p.2.2 [] }) := by
  rcases db with ⟨name, ixo, docs, md⟩
  obtain rfl : ixo = some ix := hix
  simp only [VectorDatabase.search]
  rw [if_neg (by simpa [List.length_eq_zero] using hne)]

theorem search_length (embed : List String → List (List ℤ))
    (db : VectorDatabase) (q : String) (k : Nat) (ix : FaissIndex)
    (hix : db.index = some ix) (hne : db.documents ≠ []) :
    (VectorDatabase.search embed db q k).length =
      min (min k db.documents.length) ix.vectors.length := by
  rw [search_eq embed db q k ix hix hne, List.length_map, List.enum_length,
    faiss_search_length]

theorem search_map_idx (embed : List String → List (List ℤ))
    (db : VectorDatabase) (q : String) (k : Nat) (ix : FaissIndex)
    (hix : db.index = some ix) (hne : db.documents ≠ []) :
    (VectorDatabase.search embed db q k).map SearchResult.document_idx =
      (FaissIndex.search ix ((embed [q]).headD [])
        (min k db.documents.length)).map Prod.snd := by
  rw [search_eq embed db q k ix hix hne, List.map_map]
  have h2 : (FaissIndex.search ix ((embed [q]).headD [])
        (min k db.documents.length)).enum.map
      (SearchResult.document_idx ∘ fun p =>
        ({ rank := p.1 + 1, document_idx := p.2.2, distance := p.2.1,
           text := db.documents.getD p.2.2 "",
           metadata := db.metadata.getD p.2.2 [] } : SearchResult)) =
      (FaissIndex.search ix ((embed [q]).headD [])
        (min k db.documents.length)).enum.map (Prod.snd ∘ Prod.snd) := rfl
  rw [h2, ← List.map_map, List.enum_map_snd]

/-- C2 counterexample: a failed `add_documents` call (one text, three
metadata dicts) is an externally observable point at which the index
and document list have absorbed the batch while the metadata list has
not — the store's records are no longer positionally aligned with the
index; and `load` of an index-less location is an externally observable
point at which the index length differs from the document count. -/
theorem C2_counterexample :
    ((VectorDatabase.add_documents embConst (VectorDatabase.init "m")
        ["a"] (some [[], [], []])).1.indexLen = 1 ∧
      (VectorDatabase.add_documents embConst (VectorDatabase.init "m")
        ["a"] (some [[], [], []])).1.documents.length = 1 ∧
      (VectorDatabase.add_documents embConst (VectorDatabase.init "m")
        ["a"] (some [[], [], []])).1.metadata.length = 0) ∧
    (VectorDatabase.load locGap = Except.ok dbGap ∧
      dbGap.indexLen ≠ dbGap.documents.length) := by
  decide

/-- C2 (amended): after construction and after every `add_documents`
call — successful or failed — the number of vectors in the index equals
the number of documents in the store, provided the embedder returns one
vector per text; the metadata list, however, can be left shorter by a
failed call with mismatched metadata, and `load` (which performs no
validation) can produce a catalog violating the equality. -/
theorem C2_index_store_sync (name : String)
    (embed : List String → List (List ℤ)) (db : VectorDatabase)
    (docs : List String) (md : Option (List Metadata))
    (hE : (embed docs).length = docs.length)
    (hsync : db.indexLen = db.documents.length) :
    (VectorDatabase.init name).indexLen =
      (VectorDatabase.init name).documents.length ∧
    (VectorDatabase.add_documents embed db docs md).1.indexLen =
      (VectorDatabase.add_documents embed db docs md).1.documents.length := by
  refine ⟨rfl, ?_⟩
  by_cases hne : docs = []
  · subst hne
    exact hsync
  · cases hadd : (currentIndex db (embed docs)).add (embed docs) with
    | error e =>
      rw [add_documents_of_add_err embed db docs md e hne hadd]
      show (currentIndex db (embed docs)).vectors.length = db.documents.length
      rw [currentIndex_vectors_length]
      exact hsync
    | ok ix1 =>
      have hlen1 : ix1.vectors.length = db.documents.length + docs.length := by
        rw [(faissIndex_add_ok_spec hadd).1, currentIndex_vectors_length,
          hsync, hE]
      by_cases hmd :
          (md.getD (docs.map fun _ => ([] : Metadata))).length = docs.length
      · rw [add_documents_of_md_good embed db docs md ix1 hadd hne hmd]
        show ix1.vectors.length = (db.documents ++ docs).length
        rw [hlen1, List.length_append]
      · rw [add_documents_of_md_bad embed db docs md ix1 hadd hne hmd]
        show ix1.vectors.length = (db.documents ++ docs).length
        rw [hlen1, List.length_append]

/-- Closed witness for `C2_index_store_sync` at a concrete input. -/
theorem C2_index_store_sync_witness :
    (VectorDatabase.init "m").indexLen =
      (VectorDatabase.init "m").documents.length ∧
    (VectorDatabase.add_documents embConst dbThree ["d"] none).1.indexLen =
      (VectorDatabase.add_documents embConst dbThree ["d"] none).1.documents.length :=
  C2_index_store_sync "m" embConst dbThree ["d"] none (by decide) (by decide)

/-- C6: on a catalog whose index and store lengths agree, `search` with
`k` exceeding `total_count()` succeeds and returns exactly
`total_count()` results (the `k` is clamped, not an error), and
`search` on a catalog holding zero documents returns the empty list. -/
theorem C6_k_clamped (embed : List String → List (List ℤ))
    (db : VectorDatabase) (q : String) (k : Nat)
    (hsync : db.indexLen = db.documents.length) :
    (db.total_count < k →
      (VectorDatabase.search embed db q k).length = db.total_count) ∧
    (db.documents = [] → VectorDatabase.search embed db q k = []) := by
  constructor
  · intro hk
    cases hix : db.index with
    | none =>
      have hd : db.documents = [] := by
        rw [← List.length_eq_zero, ← hsync]
        unfold VectorDatabase.indexLen
        rw [hix]
      rcases db with ⟨name, ixo, docs, md⟩
      obtain rfl : ixo = none := hix
      simp only [VectorDatabase.search, VectorDatabase.total_count]
      simp at hd
      simp [hd]
    | some ix =>
      have hnt : ix.vectors.length = db.documents.length := by
        have h2 := hsync
        unfold VectorDatabase.indexLen at h2
        rw [hix] at h2
        exact h2
      by_cases hd : db.documents = []
      · rcases db with ⟨name, ixo, docs, md⟩
        obtain rfl : ixo = some ix := hix
        simp at hd
        subst hd
        simp [VectorDatabase.search, VectorDatabase.total_count]
      · rw [search_length embed db q k ix hix hd, hnt]
        unfold VectorDatabase.total_count at hk ⊢
        omega
  · intro hd
    rcases db with ⟨name, ixo, docs, md⟩
    simp at hd
    subst hd
    cases ixo with
    | none => rfl
    | some ix => simp [VectorDatabase.search]

/-- Closed witness for `C6_k_clamped` at concrete inputs: `k = 10`
exceeds the three stored documents, and the empty catalog yields `[]`. -/
theorem C6_k_clamped_witness :
    (VectorDatabase.search embConst dbThree "q" 10).length =
      dbThree.total_count ∧
    VectorDatabase.search embConst (VectorDatabase.init "m") "q" 10 = [] :=
  ⟨(C6_k_clamped embConst dbThree "q" 10 (by decide)).1 (by decide),
   (C6_k_clamped embConst (VectorDatabase.init "m") "q" 10 (by decide)).2
     (by decide)⟩

theorem mdGet_mdInsert (m : Metadata) (k : String) (v : MValue) :
    mdGet (mdInsert m k v) k = some v := by
  induction m with
  | nil => simp [mdInsert, mdGet]
  | cons h t ih =>
    obtain ⟨k1, v1⟩ := h
    by_cases hk : k1 = k
    · subst hk
      simp [mdInsert, mdGet]
    · simp [mdInsert, mdGet, hk, ih]

theorem stampMetadata_length (s : Nat) (md : List Metadata) :
    (stampMetadata s md).length = md.length := by
  unfold stampMetadata
  rw [List.length_map, List.enum_length]

theorem stampMetadata_getD (s : Nat) (md : List Metadata) (i : Nat)
    (h : i < md.length) :
    (stampMetadata s md).getD i [] =
      mdInsert (md.getD i []) "document_idx" (MValue.nat (s + i)) := by
  simp [stampMetadata, List.getD_eq_getElem?_getD, List.getElem?_enum,
    List.getElem?_eq_getElem h]

theorem wf_add_documents (embed : List String → List (List ℤ))
    (db : VectorDatabase) (docs : List String) (md : Option (List Metadata))
    (hwf : Wf db) (hE : (embed docs).length = docs.length)
    (hok : (VectorDatabase.add_documents embed db docs md).2 =
      Except.ok ()) :
    Wf (VectorDatabase.add_documents embed db docs md).1 := by
  obtain ⟨h1, h2, h3⟩ := hwf
  by_cases hne : docs = []
  · subst hne
    exact ⟨h1, h2, h3⟩
  cases hadd : (currentIndex db (embed docs)).add (embed docs) with
  | error e =>
    rw [add_documents_of_add_err embed db docs md e hne hadd] at hok
    cases hok
  | ok ix1 =>
    by_cases hmd :
        (md.getD (docs.map fun _ => ([] : Metadata))).length = docs.length
    · rw [add_documents_of_md_good embed db docs md ix1 hadd hne hmd]
      refine ⟨?_, ?_, ?_⟩
      · show ix1.vectors.length = (db.documents ++ docs).length
        rw [(faissIndex_add_ok_spec hadd).1, currentIndex_vectors_length,
          List.length_append, h1, hE]
      · show (db.metadata ++
            stampMetadata db.documents.length
              (md.getD (docs.map fun _ => ([] : Metadata)))).length =
          (db.documents ++ docs).length
        rw [List.length_append, List.length_append, stampMetadata_length,
          h2, hmd]
      · intro i hi
        show mdGet ((db.metadata ++
            stampMetadata db.documents.length
              (md.getD (docs.map fun _ => ([] : Metadata)))).getD i [])
          "document_idx" = some (MValue.nat i)
        by_cases hlt : i < db.metadata.length
        · rw [List.getD_eq_getElem?_getD, List.getElem?_append_left hlt,
            ← List.getD_eq_getElem?_getD]
          exact h3 i hlt
        · push_neg at hlt
          have hi2 : i < (db.metadata ++
              stampMetadata db.documents.length
                (md.getD (docs.map fun _ => ([] : Metadata)))).length := by
            simpa [VectorDatabase.add_documents] using hi
          rw [List.length_append, stampMetadata_length] at hi2
          have hj : i - db.metadata.length <
              (md.getD (docs.map fun _ => ([] : Metadata))).length := by
            omega
          rw [List.getD_eq_getElem?_getD, List.getElem?_append_right hlt,
            ← List.getD_eq_getElem?_getD,
            stampMetadata_getD _ _ _ hj, mdGet_mdInsert]
          have : db.documents.length + (i - db.metadata.length) = i := by
            omega
          rw [this]
    · rw [add_documents_of_md_bad embed db docs md ix1 hadd hne hmd] at hok
      cases hok

theorem search_nil_of_index_none (embed : List String → List (List ℤ))
    (db : VectorDatabase) (q : String) (k : Nat)
    (hix : db.index = none) :
    VectorDatabase.search embed db q k = [] := by
  rcases db with ⟨name, ixo, docs, md⟩
  obtain rfl : ixo = none := hix
  rfl

theorem search_nil_of_docs_nil (embed : List String → List (List ℤ))
    (db : VectorDatabase) (q : String) (k : Nat)
    (hd : db.documents = []) :
    VectorDatabase.search embed db q k = [] := by
  rcases db with ⟨name, ixo, docs, md⟩
  simp only at hd
  subst hd
  cases ixo with
  | none => rfl
  | some ix => simp [VectorDatabase.search]

theorem wf_search (embed : List String → List (List ℤ))
    (db : VectorDatabase) (q : String) (k : Nat) (hwf : Wf db) :
    ∀ r ∈ VectorDatabase.search embed db q k,
      mdGet r.metadata "document_idx" = some (MValue.nat r.document_idx) := by
  obtain ⟨h1, h2, h3⟩ := hwf
  intro r hr
  cases hix : db.index with
  | none =>
    rw [search_nil_of_index_none embed db q k hix] at hr
    cases hr
  | some ix =>
    by_cases hne : db.documents = []
    · rw [search_nil_of_docs_nil embed db q k hne] at hr
      cases hr
    · rw [search_eq embed db q k ix hix hne] at hr
      obtain ⟨⟨i, pr⟩, hmem, rfl⟩ := List.mem_map.mp hr
      have hpr : pr ∈ FaissIndex.search ix ((embed [q]).headD [])
          (min k db.documents.length) := by
        have h4 := List.mem_map_of_mem Prod.snd hmem
        rwa [List.enum_map_snd] at h4
      have hlt : pr.2 < ix.vectors.length :=
        faiss_search_mem_lt ix _ _ pr hpr
      have hlt2 : pr.2 < db.metadata.length := by
        rw [h2, ← h1]
        unfold VectorDatabase.indexLen
        rw [hix]
        exact hlt
      exact h3 pr.2 hlt2

/-- C9: the empty catalog is well-formed; a successful `add_documents`
call preserves well-formedness (given the embedder returns one vector
per text), so every stored document's metadata carries `document_idx`
equal to its DocumentId; and on a well-formed catalog every search
result's `metadata['document_idx']` equals that result's id. -/
theorem C9_document_idx (name : String)
    (embed : List String → List (List ℤ)) (db : VectorDatabase)
    (docs : List String) (md : Option (List Metadata)) (q : String)
    (k : Nat) :
    Wf (VectorDatabase.init name) ∧
    ((embed docs).length = docs.length → Wf db →
      (VectorDatabase.add_documents embed db docs md).2 = Except.ok () →
      Wf (VectorDatabase.add_documents embed db docs md).1) ∧
    (Wf db → ∀ r ∈ VectorDatabase.search embed db q k,
      mdGet r.metadata "document_idx" = some (MValue.nat r.document_idx)) := by
  refine ⟨⟨rfl, rfl, ?_⟩, ?_, ?_⟩
  · intro i hi
    cases hi
  · intro hE hwf hok
    exact wf_add_documents embed db docs md hwf hE hok
  · intro hwf
    exact wf_search embed db q k hwf

/-- Closed witness for `C9_document_idx` at concrete inputs. -/
theorem C9_document_idx_witness :
    Wf (VectorDatabase.add_documents embConst dbThree ["d"] none).1 ∧
    mdGet rFirst.metadata "document_idx" =
      some (MValue.nat rFirst.document_idx) :=
  ⟨(C9_document_idx "m" embConst dbThree ["d"] none "q" 2).2.1
      (by decide) (by decide) (by decide),
   (C9_document_idx "m" embConst dbThree ["d"] none "q" 2).2.2
      (by decide) rFirst (by decide)⟩

/-- C5: on a non-empty catalog whose index and store lengths agree,
`search` returns `min k total_count` results ordered by ascending
squared Euclidean distance with ties broken by lower position — hence
distances are non-decreasing by rank — and every returned result's
ranking key is lexicographically no greater than the key of every
stored position that is not returned: the returned positions are the
smallest ones. -/
theorem C5_search_k_smallest (embed : List String → List (List ℤ))
    (db : VectorDatabase) (q : String) (k : Nat) (ix : FaissIndex)
    (hix : db.index = some ix)
    (hsync : ix.vectors.length = db.documents.length)
    (hne : db.documents ≠ []) :
    (VectorDatabase.search embed db q k).length = min k db.total_count ∧
    List.Pairwise (fun a b => lexLe (resKey a) (resKey b))
      (VectorDatabase.search embed db q k) ∧
    List.Pairwise (fun a b : SearchResult => a.distance ≤ b.distance)
      (VectorDatabase.search embed db q k) ∧
    ∀ r ∈ VectorDatabase.search embed db q k,
      ∀ p, p < ix.vectors.length →
        (∀ s ∈ VectorDatabase.search embed db q k, s.document_idx ≠ p) →
        lexLe (resKey r)
          (sqDist ((embed [q]).headD []) (ix.vectors.getD p []), p) := by
  have hlen : (VectorDatabase.search embed db q k).length =
      min k db.total_count := by
    rw [search_length embed db q k ix hix hne, hsync]
    unfold VectorDatabase.total_count
    rw [Nat.min_assoc, Nat.min_self]
  have hkey : List.Pairwise (fun a b => lexLe (resKey a) (resKey b))
      (VectorDatabase.search embed db q k) := by
    rw [search_eq embed db q k ix hix hne, List.pairwise_map]
    have h3 := faiss_search_sorted ix ((embed [q]).headD [])
      (min k db.documents.length)
    rw [← List.enum_map_snd (FaissIndex.search ix ((embed [q]).headD [])
      (min k db.documents.length))] at h3
    exact List.pairwise_map.mp h3
  refine ⟨hlen, hkey, ?_, ?_⟩
  · exact hkey.imp (fun h => h.elim (fun h2 => le_of_lt h2)
      (fun h2 => le_of_eq h2.1))
  · intro r hr p hp hnot
    have hmi := search_map_idx embed db q k ix hix hne
    rw [search_eq embed db q k ix hix hne] at hr
    obtain ⟨⟨i, pr⟩, hmem, rfl⟩ := List.mem_map.mp hr
    have hpr : pr ∈ FaissIndex.search ix ((embed [q]).headD [])
        (min k db.documents.length) := by
      have h4 := List.mem_map_of_mem Prod.snd hmem
      rwa [List.enum_map_snd] at h4
    have hnot2 : p ∉ (FaissIndex.search ix ((embed [q]).headD [])
        (min k db.documents.length)).map Prod.snd := by
      rw [← hmi]
      intro hmem2
      obtain ⟨s, hs, hseq⟩ := List.mem_map.mp hmem2
      exact hnot s hs hseq
    exact faiss_search_complete ix ((embed [q]).headD [])
      (min k db.documents.length) pr hpr p hp hnot2

/-- Closed witness for `C5_search_k_smallest` at concrete inputs
(`dbThree`, `k = 2`: position 2 ties at distance 1 but is not returned,
and its key is lexicographically above both returned keys). -/
theorem C5_search_k_smallest_witness :
    (VectorDatabase.search embConst dbThree "q" 2).length =
      min 2 dbThree.total_count ∧
    List.Pairwise (fun a b => lexLe (resKey a) (resKey b))
      (VectorDatabase.search embConst dbThree "q" 2) ∧
    lexLe (resKey rFirst)
      (sqDist ((embConst ["q"]).headD [])
        ((⟨1, [[0], [2], [2]]⟩ : FaissIndex).vectors.getD 2 []), 2) :=
  ⟨(C5_search_k_smallest embConst dbThree "q" 2 ⟨1, [[0], [2], [2]]⟩
      (by decide) (by decide) (by decide)).1,
   (C5_search_k_smallest embConst dbThree "q" 2 ⟨1, [[0], [2], [2]]⟩
      (by decide) (by decide) (by decide)).2.1,
   (C5_search_k_smallest embConst dbThree "q" 2 ⟨1, [[0], [2], [2]]⟩
      (by decide) (by decide) (by decide)).2.2.2 rFirst (by decide) 2
      (by decide) (by decide)⟩
